import Mathlib

/-!
# Verification of the Redundancy-Reduction and Evidence-Decoding Engine

Shallow embedding of the core data transformations of `src/app.py`
(Gconverter, an omics enrichment-analysis tool):

* `calculate_jaccard`   — Jaccard similarity of two gene lists (lines 33–37);
* `simplify_results`    — greedy similarity-based redundancy reducer (lines 39–55);
* `decode_intersections` / `get_entrez_ids_list`
                        — evidence-vector decoders (lines 171–184);
* the manual-override block with its local `append_gene` (lines 203–211).

Modelling conventions:

* A pandas DataFrame row becomes the record `Row`; the result table is a
  `List Row` in display order.
* Python floats become `ℚ` (the claims never hinge on float rounding;
  the one comparison against `1.0` is exact in both semantics because a
  Jaccard value never exceeds 1).
* The `intersections` cell of a row is `Option (List (List String))`:
  `some v` is a JSON list of evidence-code lists, `none` is any non-list
  value (`null` / NaN).  A Python function that would raise on such a cell
  returns `none` in the model.
* Python truthiness of an evidence marker (a list) is non-emptiness.
* `df.sort_values('p_value', ascending=True)` uses pandas' default sort
  kind (`'quicksort'`), which guarantees an ascending order but leaves
  the relative order of rows with equal `p_value` unspecified (it is
  documented as not stable).  The model's `pSort` is one concrete
  order-correct refinement of it (insertion sort); no theorem below
  relies on where `pSort` places tied rows.
* Python's substring test `force_gene in current_hits` is modelled by the
  executable character-list search `pyIn`.
-/

/-- One row of the enrichment Result Table, with the columns the core
pipeline reads or writes. -/
structure Row where
  source : String
  native : String
  name : String
  p_value : ℚ
  term_size : ℕ
  intersection_size : ℕ
  intersections : Option (List (List String))
  hit_genes : String
  intersections_raw : List String
deriving DecidableEq, Repr

/-- `calculate_jaccard(list1, list2)` from `src/app.py` lines 33–37:
`s1 = set(list1); s2 = set(list2); if not s1 or not s2: return 0.0;
return len(s1 & s2) / len(s1 | s2)`. -/
def calculate_jaccard (list1 list2 : List String) : ℚ :=
  let s1 := list1.toFinset
  let s2 := list2.toFinset
  if s1 = ∅ ∨ s2 = ∅ then 0
  else ((s1 ∩ s2).card : ℚ) / ((s1 ∪ s2).card : ℚ)

/-- The ordering used by `df.sort_values('p_value', ascending=True)`. -/
def rowLe (a b : Row) : Prop := a.p_value ≤ b.p_value

instance : DecidableRel rowLe :=
  fun a b => inferInstanceAs (Decidable (a.p_value ≤ b.p_value))

instance : IsTotal Row rowLe := ⟨fun a b => le_total a.p_value b.p_value⟩

instance : IsTrans Row rowLe := ⟨fun _ _ _ h h2 => le_trans h h2⟩

/-- Ascending sort by `p_value`, modelling
`df.sort_values('p_value', ascending=True)`.  The source uses pandas'
default `kind='quicksort'`, which fixes only the ascending order, not
the relative order of tied rows; insertion sort here is one concrete
order-correct refinement of that contract, and nothing proved below
depends on its particular tie order. -/
def pSort (df : List Row) : List Row :=
  df.insertionSort rowLe

/-- The `for i in range(len(df))` loop of `simplify_results`
(lines 44–54): walk the sorted rows, carrying the gene lists of the rows
kept so far; a row is dropped when its Jaccard similarity to some kept
row's gene list strictly exceeds the threshold. -/
def simplifyLoop (threshold : ℚ) : List Row → List (List String) → List Row
  | [], _ => []
  | r :: rest, keptGenes =>
    if keptGenes.any (fun kept => calculate_jaccard r.intersections_raw kept > threshold) then
      simplifyLoop threshold rest keptGenes
    else
      r :: simplifyLoop threshold rest (keptGenes ++ [r.intersections_raw])

/-- `simplify_results(df, threshold)` from `src/app.py` lines 39–55. -/
def simplify_results (df : List Row) (threshold : ℚ) : List Row :=
  if df = [] then df
  else simplifyLoop threshold (pSort df) []

/-- The shared shape of the two decoding loops (lines 173–176 and
181–183): `for idx, evidences in enumerate(inter_list): if evidences and
idx < len(unique_converted_ids): out.append(f(idx))`. -/
def decodeLoop (f : ℕ → String) (idsLen : ℕ) : ℕ → List (List String) → List String
  | _, [] => []
  | idx, evidences :: rest =>
    if evidences ≠ [] ∧ idx < idsLen then
      f idx :: decodeLoop f idsLen (idx + 1) rest
    else
      decodeLoop f idsLen (idx + 1) rest

/-- The label chosen for position `idx`:
`entrez_to_symbol.get(unique_converted_ids[idx], unique_converted_ids[idx])`
— the resolved symbol if any, else the identifier itself. -/
def labelAt (entrez_to_symbol : String → Option String) (ids : List String)
    (idx : ℕ) : String :=
  (entrez_to_symbol (ids.getD idx "")).getD (ids.getD idx "")

/-- `decode_intersections(inter_list)` from `src/app.py` lines 171–177:
a non-list cell returns `""`; otherwise the hit labels joined by `"; "`. -/
def decode_intersections (entrez_to_symbol : String → Option String)
    (ids : List String) (inter : Option (List (List String))) : String :=
  match inter with
  | none => ""
  | some l => String.intercalate "; " (decodeLoop (labelAt entrez_to_symbol ids) ids.length 0 l)

/-- `get_entrez_ids_list(inter_list)` from `src/app.py` lines 179–184.
Unlike `decode_intersections` it has no `isinstance` guard, so a non-list
cell makes `enumerate(inter_list)` raise `TypeError`; the model returns
`none` there. -/
def get_entrez_ids_list (ids : List String)
    (inter : Option (List (List String))) : Option (List String) :=
  match inter with
  | none => none
  | some l => some (decodeLoop (fun idx => ids.getD idx "") ids.length 0 l)

/-- Python's substring test `needle in hay` on strings, as a search over
the character lists: true iff the character sequence of `needle` occurs
contiguously in `hay`. -/
def charsLeadWith : List Char → List Char → Bool
  | [], _ => true
  | _ :: _, [] => false
  | a :: as, b :: bs => a == b && charsLeadWith as bs

/-- Search every suffix of `hay` for `needle` as a leading block. -/
def charsOccur (needle : List Char) : List Char → Bool
  | [] => charsLeadWith needle []
  | b :: bs => charsLeadWith needle (b :: bs) || charsOccur needle bs

/-- `needle in hay` for Python strings. -/
def pyIn (needle hay : String) : Bool :=
  charsOccur needle.toList hay.toList

/-- `append_gene(current_hits)` from `src/app.py` lines 206–208:
`if force_gene in current_hits: return current_hits;
return current_hits + "; " + force_gene if current_hits else force_gene`. -/
def append_gene (force_gene current_hits : String) : String :=
  if pyIn force_gene current_hits then current_hits
  else if current_hits ≠ "" then current_hits ++ "; " ++ force_gene
  else force_gene

/-- The manual-override block from `src/app.py` lines 203–211:
when both inputs are non-empty (Python truthiness) and some row's
`native` equals the target, every matching row gets `append_gene`
applied to `hit_genes` and `intersection_size` incremented (the
increment is outside `append_gene`, hence unconditional). -/
def applyOverride (force_gene force_pathway_id : String) (results : List Row) : List Row :=
  if force_gene ≠ "" ∧ force_pathway_id ≠ "" then
    if results.any (fun r => r.native == force_pathway_id) then
      results.map (fun r =>
        if r.native = force_pathway_id then
          { r with hit_genes := append_gene force_gene r.hit_genes,
                   intersection_size := r.intersection_size + 1 }
        else r)
    else results
  else results

/-! ## Helper lemmas -/

/-- A Jaccard value never exceeds 1: the intersection is no larger than
the union. -/
theorem calculate_jaccard_le_one (l1 l2 : List String) : calculate_jaccard l1 l2 ≤ 1 := by
  unfold calculate_jaccard
  dsimp only
  split
  · norm_num
  · exact div_le_one_of_le₀
      (by exact_mod_cast Finset.card_le_card Finset.inter_subset_union)
      (by positivity)

/-- The reducer loop only ever drops rows: its output is a sublist of its
input. -/
theorem simplifyLoop_sublist (τ : ℚ) :
    ∀ (l : List Row) (kept : List (List String)), (simplifyLoop τ l kept).Sublist l
  | [], _ => by simp [simplifyLoop]
  | r :: rest, kept => by
    rw [simplifyLoop]
    split
    · exact (simplifyLoop_sublist τ rest kept).cons r
    · exact (simplifyLoop_sublist τ rest (kept ++ [r.intersections_raw])).cons₂ r

/-- With threshold 1 the discard condition `sim > 1` is never true, so the
loop keeps everything. -/
theorem simplifyLoop_one :
    ∀ (l : List Row) (kept : List (List String)), simplifyLoop 1 l kept = l
  | [], _ => rfl
  | r :: rest, kept => by
    rw [simplifyLoop, if_neg, simplifyLoop_one rest]
    intro hany
    rw [List.any_eq_true] at hany
    obtain ⟨x, -, hx⟩ := hany
    exact absurd (of_decide_eq_true hx) (not_lt.mpr (calculate_jaccard_le_one _ _))

/-- Once the running index has reached the universe length, the guard
`idx < len(unique_converted_ids)` is false forever and nothing more is
collected. -/
theorem decodeLoop_ge (f : ℕ → String) (n : ℕ) :
    ∀ (l : List (List String)) (k : ℕ), n ≤ k → decodeLoop f n k l = []
  | [], _, _ => rfl
  | ev :: rest, k, h => by
    rw [decodeLoop, if_neg, decodeLoop_ge f n rest (k + 1) (le_trans h (Nat.le_succ k))]
    rintro ⟨-, hlt⟩
    exact absurd hlt (not_lt.mpr h)

/-- Positions of the evidence vector at or past the universe length are
ignored: decoding a vector equals decoding its prefix of universe
length. -/
theorem decodeLoop_take (f : ℕ → String) (n : ℕ) :
    ∀ (l : List (List String)) (k : ℕ),
      decodeLoop f n k l = decodeLoop f n k (l.take (n - k))
  | [], k => by rw [List.take_nil]
  | ev :: rest, k => by
    by_cases h : k < n
    · have hnk : n - k = (n - (k + 1)) + 1 := by omega
      rw [hnk, List.take_succ_cons, decodeLoop, decodeLoop,
        ← decodeLoop_take f n rest (k + 1)]
    · have h1 : decodeLoop f n k (ev :: rest) = decodeLoop f n (k + 1) rest := by
        rw [decodeLoop, if_neg]
        rintro ⟨-, hlt⟩
        exact h hlt
      have h2 : n - k = 0 := by omega
      rw [h1, h2, List.take_zero, decodeLoop_ge f n rest (k + 1) (by omega)]
      rfl

/-- Positional characterisation of the decoding loop: starting at index
`k`, the collected entries are exactly `f (k + i)` for the positions `i`
of the remaining vector whose marker is non-empty and whose absolute
index stays below the universe length, in increasing position order. -/
theorem decodeLoop_eq (f : ℕ → String) (n : ℕ) :
    ∀ (l : List (List String)) (k : ℕ),
      decodeLoop f n k l =
        ((List.range l.length).filter
            (fun i => l.getD i [] ≠ [] ∧ k + i < n)).map (fun i => f (k + i))
  | [], k => by simp [decodeLoop]
  | ev :: rest, k => by
    have hfilter :
        List.filter ((fun i => decide ((ev :: rest).getD i [] ≠ [] ∧ k + i < n)) ∘ Nat.succ)
            (List.range rest.length) =
          List.filter (fun i => decide (rest.getD i [] ≠ [] ∧ k + 1 + i < n))
            (List.range rest.length) := by
      apply List.filter_congr
      intro i hi
      simp only [Function.comp_apply, List.getD_cons_succ, decide_eq_decide]
      constructor <;> rintro ⟨h1, h2⟩ <;> exact ⟨h1, by omega⟩
    have hmap :
        List.map ((fun i => f (k + i)) ∘ Nat.succ)
            (List.filter (fun i => decide (rest.getD i [] ≠ [] ∧ k + 1 + i < n))
              (List.range rest.length)) =
          List.map (fun i => f (k + 1 + i))
            (List.filter (fun i => decide (rest.getD i [] ≠ [] ∧ k + 1 + i < n))
              (List.range rest.length)) := by
      apply List.map_congr_left
      intro i hi
      simp only [Function.comp_apply]
      congr 1
      omega
    rw [show (ev :: rest).length = rest.length + 1 from rfl, List.range_succ_eq_map,
      List.filter_cons, List.filter_map, apply_ite (List.map (fun i => f (k + i))),
      List.map_cons, List.map_map, hfilter, hmap]
    rw [decodeLoop, decodeLoop_eq f n rest (k + 1)]
    by_cases h0 : ev ≠ [] ∧ k < n
    · rw [if_pos h0, if_pos (by simpa using h0)]
      simp
    · rw [if_neg h0, if_neg (by simpa using h0)]

/-- Specialisation of `decodeLoop_eq` to a start index of 0 and a vector
no longer than the universe: the bound guard is redundant and the
collected entries are indexed by the hit positions. -/
theorem decodeLoop_eq_of_length_le (f : ℕ → String) (n : ℕ)
    (l : List (List String)) (hle : l.length ≤ n) :
    decodeLoop f n 0 l =
      ((List.range l.length).filter (fun i => l.getD i [] ≠ [])).map f := by
  rw [decodeLoop_eq]
  have hf : List.filter (fun i => decide (l.getD i [] ≠ [] ∧ 0 + i < n)) (List.range l.length) =
      List.filter (fun i => decide (l.getD i [] ≠ [])) (List.range l.length) := by
    apply List.filter_congr
    intro i hi
    rw [List.mem_range] at hi
    simp only [decide_eq_decide]
    constructor
    · rintro ⟨h1, -⟩; exact h1
    · intro h1; exact ⟨h1, by omega⟩
  rw [hf]
  apply List.map_congr_left
  intro i hi
  simp

/-! ## Claim theorems -/

/-- C1 (code bug demonstration).  The claim says the manual override is
idempotent and that a force-add whose label is already present changes
nothing.  In the code the duplicate check lives inside `append_gene`,
but `results.loc[mask, 'intersection_size'] += 1` sits outside it, so
every application of the override increments the matched row's
`intersection_size`, even when the label is already present: one
application turns size 1 into 2 while leaving `hit_genes` at `"SHC4"`,
and a second application turns it into 3. -/
theorem override_not_idempotent :
    (applyOverride "SHC4" "KEGG:04915"
        [{ source := "KEGG", native := "KEGG:04915", name := "Estrogen signaling",
           p_value := 1/1000, term_size := 10, intersection_size := 1,
           intersections := some [["IEA"]], hit_genes := "SHC4",
           intersections_raw := ["100"] }] =
      [{ source := "KEGG", native := "KEGG:04915", name := "Estrogen signaling",
         p_value := 1/1000, term_size := 10, intersection_size := 2,
         intersections := some [["IEA"]], hit_genes := "SHC4",
         intersections_raw := ["100"] }])
    ∧ (applyOverride "SHC4" "KEGG:04915" (applyOverride "SHC4" "KEGG:04915"
        [{ source := "KEGG", native := "KEGG:04915", name := "Estrogen signaling",
           p_value := 1/1000, term_size := 10, intersection_size := 1,
           intersections := some [["IEA"]], hit_genes := "SHC4",
           intersections_raw := ["100"] }]) =
      [{ source := "KEGG", native := "KEGG:04915", name := "Estrogen signaling",
         p_value := 1/1000, term_size := 10, intersection_size := 3,
         intersections := some [["IEA"]], hit_genes := "SHC4",
         intersections_raw := ["100"] }]) := ⟨rfl, rfl⟩

/-- C2 (code bug demonstration).  The claim says a row whose
`intersections` cell is not a list degrades to Raw Hit Set `{}` and
Label List `""` without raising.  `decode_intersections` indeed returns
`""` (it has the `isinstance` guard), but `get_entrez_ids_list` has no
such guard, so `enumerate(None)` raises `TypeError` (modelled as `none`)
instead of producing the empty list: the row does not survive with its
reported `intersection_size`, the whole analysis aborts. -/
theorem rowDecode_degradation_divergence :
    decode_intersections (fun _ => none) ["101"] none = ""
    ∧ get_entrez_ids_list ["101"] none = none := ⟨rfl, rfl⟩

/-- C3: a row is discarded by the reducer loop exactly when the Jaccard
similarity between its raw-hit list and some already-kept row's raw-hit
list strictly exceeds the threshold (so similarity equal to the
threshold keeps the row), and with threshold 1 the reducer returns the
sorted input unchanged. -/
theorem reducer_discard_rule (τ : ℚ) (r : Row) (rest : List Row)
    (keptGenes : List (List String)) :
    (simplifyLoop τ (r :: rest) keptGenes =
      if ∃ kept ∈ keptGenes, calculate_jaccard r.intersections_raw kept > τ then
        simplifyLoop τ rest keptGenes
      else r :: simplifyLoop τ rest (keptGenes ++ [r.intersections_raw]))
    ∧ (∀ df : List Row, simplify_results df 1 = pSort df) := by
  constructor
  · rw [simplifyLoop]
    exact if_congr (by simp) rfl rfl
  · intro df
    unfold simplify_results
    split
    · rename_i hdf
      rw [hdf]
      rfl
    · exact simplifyLoop_one (pSort df) []

/-- C4: for an evidence vector of the same length as the identifier
universe, decoding collects, in position order over the hit set
`S = {i < n : V[i] nonempty}`, exactly the identifiers `U[i]` (raw hit
list) and the labels `labelAt U[i]` (symbol if resolved, else the
identifier itself), and the label list has exactly `card S` entries. -/
theorem evidence_decoding_alignment (entrez_to_symbol : String → Option String)
    (ids : List String) (v : List (List String)) (h : v.length = ids.length) :
    get_entrez_ids_list ids (some v) =
      some (((List.range ids.length).filter (fun i => v.getD i [] ≠ [])).map
        (fun i => ids.getD i ""))
    ∧ decode_intersections entrez_to_symbol ids (some v) =
        String.intercalate "; "
          (((List.range ids.length).filter (fun i => v.getD i [] ≠ [])).map
            (labelAt entrez_to_symbol ids))
    ∧ (((List.range ids.length).filter (fun i => v.getD i [] ≠ [])).map
          (labelAt entrez_to_symbol ids)).length =
        ((List.range ids.length).filter (fun i => v.getD i [] ≠ [])).length := by
  have hle : v.length ≤ ids.length := le_of_eq h
  refine ⟨?_, ?_, by simp⟩
  · show some (decodeLoop (fun idx => ids.getD idx "") ids.length 0 v) = _
    rw [decodeLoop_eq_of_length_le _ _ _ hle, h]
  · show String.intercalate "; " (decodeLoop (labelAt entrez_to_symbol ids) ids.length 0 v) = _
    rw [decodeLoop_eq_of_length_le _ _ _ hle, h]

/-- Witness for C4 at a concrete universe, vector and symbol map:
hits at positions 0 and 2, symbol resolved only for `"101"`. -/
theorem evidence_decoding_alignment_witness :
    get_entrez_ids_list ["101", "102", "103"] (some [["IEA"], [], ["TAS"]]) =
      some (((List.range (["101", "102", "103"] : List String).length).filter
          (fun i => ([["IEA"], [], ["TAS"]] : List (List String)).getD i [] ≠ [])).map
        (fun i => (["101", "102", "103"] : List String).getD i ""))
    ∧ decode_intersections (fun s => if s = "101" then some "G101" else none)
        ["101", "102", "103"] (some [["IEA"], [], ["TAS"]]) =
        String.intercalate "; "
          (((List.range (["101", "102", "103"] : List String).length).filter
              (fun i => ([["IEA"], [], ["TAS"]] : List (List String)).getD i [] ≠ [])).map
            (labelAt (fun s => if s = "101" then some "G101" else none) ["101", "102", "103"]))
    ∧ (((List.range (["101", "102", "103"] : List String).length).filter
          (fun i => ([["IEA"], [], ["TAS"]] : List (List String)).getD i [] ≠ [])).map
          (labelAt (fun s => if s = "101" then some "G101" else none) ["101", "102", "103"])).length =
        ((List.range (["101", "102", "103"] : List String).length).filter
          (fun i => ([["IEA"], [], ["TAS"]] : List (List String)).getD i [] ≠ [])).length :=
  evidence_decoding_alignment (fun s => if s = "101" then some "G101" else none)
    ["101", "102", "103"] [["IEA"], [], ["TAS"]] rfl

/-- C5: on non-empty inputs `calculate_jaccard` is exactly
`card (A ∩ B) / card (A ∪ B)` over the underlying sets, it is 0 whenever
either set is empty, and the three spec examples evaluate as stated. -/
theorem jaccard_spec (l1 l2 a b : List String) (h1 : l1 ≠ []) (h2 : l2 ≠ [])
    (hab : a.toFinset = ∅ ∨ b.toFinset = ∅) :
    calculate_jaccard l1 l2 =
      ((l1.toFinset ∩ l2.toFinset).card : ℚ) / ((l1.toFinset ∪ l2.toFinset).card : ℚ)
    ∧ calculate_jaccard a b = 0
    ∧ calculate_jaccard [] [] = 0
    ∧ calculate_jaccard ["A"] ["A"] = 1
    ∧ calculate_jaccard ["A", "B"] ["B", "C"] = 1/3 := by
  refine ⟨?_, ?_, ?_, ?_, ?_⟩
  · have hne : ¬(l1.toFinset = ∅ ∨ l2.toFinset = ∅) := by
      rw [not_or]
      exact ⟨by simpa [List.toFinset_eq_empty_iff] using h1,
        by simpa [List.toFinset_eq_empty_iff] using h2⟩
    unfold calculate_jaccard
    dsimp only
    rw [if_neg hne]
  · unfold calculate_jaccard
    dsimp only
    rw [if_pos hab]
  · simp [calculate_jaccard]
  · have hc1 : ((["A"] : List String).toFinset ∩ (["A"] : List String).toFinset).card = 1 := rfl
    have hc2 : ((["A"] : List String).toFinset ∪ (["A"] : List String).toFinset).card = 1 := rfl
    have hne : ¬((["A"] : List String).toFinset = ∅ ∨ (["A"] : List String).toFinset = ∅) := by
      decide
    unfold calculate_jaccard
    dsimp only
    rw [if_neg hne, hc1, hc2]
    norm_num
  · have hc1 :
        ((["A", "B"] : List String).toFinset ∩ (["B", "C"] : List String).toFinset).card = 1 := rfl
    have hc2 :
        ((["A", "B"] : List String).toFinset ∪ (["B", "C"] : List String).toFinset).card = 3 := rfl
    have hne :
        ¬((["A", "B"] : List String).toFinset = ∅ ∨ (["B", "C"] : List String).toFinset = ∅) := by
      decide
    unfold calculate_jaccard
    dsimp only
    rw [if_neg hne, hc1, hc2]
    norm_num

/-- Witness for C5 at concrete non-empty lists and a concrete empty
first argument. -/
theorem jaccard_spec_witness :
    calculate_jaccard ["X"] ["Y"] =
      (((["X"] : List String).toFinset ∩ (["Y"] : List String).toFinset).card : ℚ) /
        (((["X"] : List String).toFinset ∪ (["Y"] : List String).toFinset).card : ℚ)
    ∧ calculate_jaccard [] ["Z"] = 0
    ∧ calculate_jaccard [] [] = 0
    ∧ calculate_jaccard ["A"] ["A"] = 1
    ∧ calculate_jaccard ["A", "B"] ["B", "C"] = 1/3 :=
  jaccard_spec ["X"] ["Y"] [] ["Z"] (by decide) (by decide) (Or.inl rfl)

/-- C7: an override whose target term ID matches no row of the table
leaves the table unchanged (the `mask.any()` guard makes the whole block
a no-op). -/
theorem override_no_match_noop (g pid : String) (results : List Row)
    (h : ∀ r ∈ results, r.native ≠ pid) :
    applyOverride g pid results = results := by
  unfold applyOverride
  split
  · have hany : results.any (fun r => r.native == pid) = false := by
      rw [List.any_eq_false]
      intro r hr
      simp [h r hr]
    simp [hany]
  · rfl

/-- Witness for C7: a target ID matching no row leaves the one-row table
unchanged. -/
theorem override_no_match_noop_witness :
    applyOverride "SHC4" "KEGG:00000"
      [{ source := "KEGG", native := "KEGG:04915", name := "Estrogen signaling",
         p_value := 1/1000, term_size := 10, intersection_size := 1,
         intersections := some [["IEA"]], hit_genes := "SHC4",
         intersections_raw := ["100"] }] =
      [{ source := "KEGG", native := "KEGG:04915", name := "Estrogen signaling",
         p_value := 1/1000, term_size := 10, intersection_size := 1,
         intersections := some [["IEA"]], hit_genes := "SHC4",
         intersections_raw := ["100"] }] :=
  override_no_match_noop "SHC4" "KEGG:00000" _ (by decide)

/-- C8: when the override's inputs are non-empty and the target matches
at least one row, the table becomes the pointwise map that rewrites
exactly the matching rows — `hit_genes` via `append_gene` and
`intersection_size` incremented by one, all other fields (including
`intersections_raw`) and all non-matching rows untouched — and when the
label does not already occur in a row's `hit_genes` string,
`append_gene` appends it after `"; "` (or becomes the whole string if it
was empty). -/
theorem override_frame_effect (g pid : String) (results : List Row)
    (hg : g ≠ "") (hp : pid ≠ "")
    (hmatch : results.any (fun r => r.native == pid) = true) :
    (applyOverride g pid results =
      results.map (fun r =>
        if r.native = pid then
          { r with hit_genes := append_gene g r.hit_genes,
                   intersection_size := r.intersection_size + 1 }
        else r))
    ∧ ∀ s : String, pyIn g s = false →
        append_gene g s = if s = "" then g else s ++ "; " ++ g := by
  constructor
  · unfold applyOverride
    rw [if_pos ⟨hg, hp⟩, if_pos hmatch]
  · intro s hs
    unfold append_gene
    rw [if_neg (by simp [hs])]
    by_cases hse : s = "" <;> simp [hse]

/-- Witness for C8: a two-row table in which only the first row matches,
and a concrete append to a non-empty label string. -/
theorem override_frame_effect_witness :
    (applyOverride "X" "KEGG:04915"
        [{ source := "KEGG", native := "KEGG:04915", name := "Estrogen signaling",
           p_value := 1/1000, term_size := 10, intersection_size := 2,
           intersections := some [["IEA"], ["TAS"]], hit_genes := "G101; G102",
           intersections_raw := ["101", "102"] },
         { source := "GO:BP", native := "GO:0001234", name := "Some process",
           p_value := 1/100, term_size := 5, intersection_size := 1,
           intersections := some [["IEA"]], hit_genes := "G101",
           intersections_raw := ["101"] }] =
      List.map (fun r =>
        if r.native = "KEGG:04915" then
          { r with hit_genes := append_gene "X" r.hit_genes,
                   intersection_size := r.intersection_size + 1 }
        else r)
        [{ source := "KEGG", native := "KEGG:04915", name := "Estrogen signaling",
           p_value := 1/1000, term_size := 10, intersection_size := 2,
           intersections := some [["IEA"], ["TAS"]], hit_genes := "G101; G102",
           intersections_raw := ["101", "102"] },
         { source := "GO:BP", native := "GO:0001234", name := "Some process",
           p_value := 1/100, term_size := 5, intersection_size := 1,
           intersections := some [["IEA"]], hit_genes := "G101",
           intersections_raw := ["101"] }])
    ∧ append_gene "X" "G101; G102" =
        if ("G101; G102" : String) = "" then "X" else "G101; G102" ++ "; " ++ "X" :=
  ⟨(override_frame_effect "X" "KEGG:04915" _ (by decide) (by decide) (by decide)).1,
   (override_frame_effect "X" "KEGG:04915"
      [{ source := "KEGG", native := "KEGG:04915", name := "Estrogen signaling",
         p_value := 1/1000, term_size := 10, intersection_size := 2,
         intersections := some [["IEA"], ["TAS"]], hit_genes := "G101; G102",
         intersections_raw := ["101", "102"] }]
      (by decide) (by decide) (by decide)).2 "G101; G102" (by decide)⟩

/-- C9: the reducer is a pure function of its table and threshold —
equal inputs give equal outputs — and the Jaccard kernel depends on its
list arguments only through the underlying sets (it is invariant under
permutation of either argument), so no internal iteration order can leak
into the result. -/
theorem reducer_deterministic (df₁ df₂ : List Row) (τ₁ τ₂ : ℚ)
    (hdf : df₁ = df₂) (hτ : τ₁ = τ₂) (l1 l1' l2 : List String) (hperm : l1.Perm l1') :
    simplify_results df₁ τ₁ = simplify_results df₂ τ₂
    ∧ calculate_jaccard l1 l2 = calculate_jaccard l1' l2
    ∧ calculate_jaccard l2 l1 = calculate_jaccard l2 l1' := by
  subst hdf hτ
  have hfin : l1.toFinset = l1'.toFinset := List.toFinset_eq_of_perm _ _ hperm
  refine ⟨rfl, ?_, ?_⟩ <;> unfold calculate_jaccard <;> dsimp only <;> rw [hfin]

/-- Witness for C9 at a concrete table, threshold and permutation. -/
theorem reducer_deterministic_witness :
    simplify_results [] 1 = simplify_results [] 1
    ∧ calculate_jaccard ["A", "B"] ["B"] = calculate_jaccard ["B", "A"] ["B"]
    ∧ calculate_jaccard ["B"] ["A", "B"] = calculate_jaccard ["B"] ["B", "A"] :=
  reducer_deterministic [] [] 1 1 rfl rfl ["A", "B"] ["B", "A"] ["B"]
    (List.Perm.swap "B" "A" [])

/-- C10: positions of the evidence vector at or beyond the universe
length contribute nothing to either decoder — decoding any vector equals
decoding its prefix of universe length — and the list-shaped decode
always yields a value (never raises). -/
theorem overlong_evidence_truncated (entrez_to_symbol : String → Option String)
    (ids : List String) (v : List (List String)) :
    decode_intersections entrez_to_symbol ids (some v) =
      decode_intersections entrez_to_symbol ids (some (v.take ids.length))
    ∧ get_entrez_ids_list ids (some v) =
        get_entrez_ids_list ids (some (v.take ids.length))
    ∧ (get_entrez_ids_list ids (some v)).isSome = true := by
  refine ⟨?_, ?_, rfl⟩
  · show String.intercalate "; " (decodeLoop (labelAt entrez_to_symbol ids) ids.length 0 v) =
      String.intercalate "; "
        (decodeLoop (labelAt entrez_to_symbol ids) ids.length 0 (v.take ids.length))
    rw [decodeLoop_take (labelAt entrez_to_symbol ids) ids.length v 0, Nat.sub_zero]
  · show some (decodeLoop (fun idx => ids.getD idx "") ids.length 0 v) =
      some (decodeLoop (fun idx => ids.getD idx "") ids.length 0 (v.take ids.length))
    rw [decodeLoop_take (fun idx => ids.getD idx "") ids.length v 0, Nat.sub_zero]
